import Mathlib

/-!
Verification of the Jira/Copilot workflow extension (`src/extension.ts`).

The development shallowly embeds the parts of the extension that the
claims concern: the JavaScript value model needed by the ADF rich-text
renderer `_extractTextFromADF`, the attachment policies of
`_buildIssueContext` (unified profile) and `_fetchFullIssueDetails`
(inline profile), the two-tier issue search `_callJiraAPI`, issue
classification `_getIssueType`, branch setup `_setupGitBranch`, and the
changeset capture `_getGitChangeset` / `_createUnitTests`.

Network and process effects are modelled by passing the outcome of each
external call (HTTP response, thrown exception, git command result) as
explicit data; JavaScript exceptions are modelled with `Except`.
-/

namespace Spec2Proof

/-! ## JavaScript value model

`_extractTextFromADF` receives untyped JSON (`adf: any`), so the renderer
is embedded over a JavaScript value type.  Member access on a missing
field yields `undefined`; member access on `null`/`undefined` throws. -/

inductive Js where
  | undefined : Js
  | null : Js
  | bool : Bool → Js
  | num : Int → Js
  | str : String → Js
  | arr : List Js → Js
  | obj : List (String × Js) → Js
deriving Inhabited

/-- JavaScript property read `v[k]`: lookup in an object, `undefined` for a
missing field or a primitive receiver (primitives do not throw on member
access; `null`/`undefined` receivers are handled at each access site). -/
def getField : Js → String → Js
  | .obj fs, k =>
    match fs.find? (fun p => p.1 == k) with
    | some p => p.2
    | none => .undefined
  | _, _ => .undefined

/-- JavaScript truthiness. -/
def truthy : Js → Bool
  | .undefined => false
  | .null => false
  | .bool b => b
  | .num n => n != 0
  | .str s => !s.isEmpty
  | .arr _ => true
  | .obj _ => true

/-- JavaScript strict equality of a value with a string literal
(`node.type === "text"`). -/
def Js.isStr : Js → String → Bool
  | .str t, s => t == s
  | _, _ => false

/-- String conversion of an array element inside `Array.prototype.toString`
(`null`/`undefined` elements print as empty; nested arrays, which never
occur in the claims, are approximated by their own element join being
dropped to the empty string). -/
def jsAtomToString : Js → String
  | .undefined => ""
  | .null => ""
  | .bool b => cond b "true" "false"
  | .num n => toString n
  | .str s => s
  | .arr _ => ""
  | .obj _ => "[object Object]"

/-- JavaScript string coercion `"" + v` (as in `result += node.text`). -/
def jsPrimToString : Js → String
  | .undefined => "undefined"
  | .null => "null"
  | .bool b => cond b "true" "false"
  | .num n => toString n
  | .str s => s
  | .arr xs => String.intercalate "," (xs.map jsAtomToString)
  | .obj _ => "[object Object]"

/-- Digits of a decimal numeral, or `none` when some character is not a
digit (used to model `Number(string)` on integer numerals). -/
def natOfDigits : List Char → Option Nat
  | [] => none
  | cs =>
    if cs.all Char.isDigit then
      some (cs.foldl (fun acc c => acc * 10 + (c.toNat - 48)) 0)
    else none

/-- JavaScript `ToIntegerOrInfinity` on the string coercion of a value,
modelled for integer numerals; a non-numeric string (`NaN`) coerces to 0,
as it does in `String.prototype.repeat`. -/
def jsIntOfString (s : String) : Int :=
  let t := String.mk ((s.toList.dropWhile Char.isWhitespace).reverse.dropWhile Char.isWhitespace).reverse
  if t == "" then 0
  else
    match t.toList with
    | c :: rest =>
      if c == Char.ofNat 45 then
        match natOfDigits rest with
        | some n => -(n : Int)
        | none => 0
      else
        match natOfDigits (c :: rest) with
        | some n => (n : Int)
        | none => 0
    | [] => 0

/-- The count argument of `'#'.repeat(level)`: negative counts raise a
`RangeError`; other values coerce through `ToIntegerOrInfinity`. -/
def toRepeatCount : Js → Except String Nat
  | .num n => if n < 0 then .error "RangeError" else .ok n.toNat
  | .bool b => .ok (cond b 1 0)
  | v =>
    let n := jsIntOfString (jsPrimToString v)
    if n < 0 then .error "RangeError" else .ok n.toNat

/-- The `level` used by the heading branch: `node.attrs?.level || 1`. -/
def headingLevelJs (node : Js) : Js :=
  let l := getField (getField node "attrs") "level"
  if truthy l then l else .num 1

/-- The url used by the card branch: `node.attrs?.url || ""`. -/
def cardUrlJs (node : Js) : Js :=
  let u := getField (getField node "attrs") "url"
  if truthy u then u else .str ""

/-- JavaScript whitespace as trimmed by `String.prototype.trim`. -/
def jsWhitespace (c : Char) : Bool :=
  c == ' ' || c == Char.ofNat 9 || c == Char.ofNat 10 || c == Char.ofNat 13 ||
  c == Char.ofNat 11 || c == Char.ofNat 12 || c == Char.ofNat 160

/-- JavaScript `s.trim()`. -/
def jsTrim (s : String) : String :=
  String.mk (((s.toList.dropWhile jsWhitespace).reverse.dropWhile jsWhitespace).reverse)

/-- JavaScript `s.includes(needle)` (substring containment). -/
def jsIncludes (s needle : String) : Bool :=
  s.toList.tails.any (fun t => needle.toList.isPrefixOf t)

/-- JavaScript `s.startsWith(needle)`. -/
def jsStartsWith (s needle : String) : Bool :=
  needle.toList.isPrefixOf s.toList

/-- JavaScript `s.endsWith(needle)`. -/
def jsEndsWith (s needle : String) : Bool :=
  needle.toList.isSuffixOf s.toList

/-- JavaScript `s.toLowerCase()` (ASCII case folding suffices here). -/
def jsToLower (s : String) : String :=
  String.mk (s.toList.map Char.toLower)

/-- A `null` or `undefined` receiver: member access on it throws. -/
def isNullish : Js → Bool
  | .undefined => true
  | .null => true
  | _ => false

/-! ## The ADF rich-text renderer (`_extractTextFromADF`)

`processNode` embeds the inner `processNode` closure; iteration over a
`content` array is split into the helpers `processConcat` (plain
concatenation, as in `paragraph`, `heading`, `codeBlock` and the generic
arm), `processBullets` (`bulletList`/`orderedList`) and
`processItemChildren` (`listItem`).  A truthy non-array `content` value
makes `content.forEach` throw a `TypeError`, which is modelled by
`Except.error`. -/

theorem sizeOf_lt_of_content {v : Js} {xs : List Js}
    (h : getField v "content" = Js.arr xs) : sizeOf xs < sizeOf v := by
  cases v with
  | obj fs =>
    simp only [getField] at h
    split at h
    case _ p hf =>
      have hmem : p ∈ fs := List.mem_of_find?_eq_some hf
      have h1 : sizeOf p < sizeOf fs := List.sizeOf_lt_of_mem hmem
      obtain ⟨a, b⟩ := p
      subst h
      simp only [Js.obj.sizeOf_spec, Js.arr.sizeOf_spec, Prod.mk.sizeOf_spec] at *
      omega
    case _ hf => exact absurd h (by simp)
  | undefined => exact absurd h (by simp [getField])
  | null => exact absurd h (by simp [getField])
  | bool b => exact absurd h (by simp [getField])
  | num n => exact absurd h (by simp [getField])
  | str s => exact absurd h (by simp [getField])
  | arr l => exact absurd h (by simp [getField])

mutual

def processNode (v : Js) : Except String String :=
  if isNullish v then .error "TypeError"
  else
    let t := getField v "type"
    if t.isStr "text" then .ok (jsPrimToString (getField v "text"))
    else if t.isStr "hardBreak" then .ok "\n"
    else if t.isStr "paragraph" then
      match hc : getField v "content" with
      | .arr xs =>
        have : sizeOf xs < sizeOf v := sizeOf_lt_of_content hc
        (processConcat xs).map (fun s => s ++ "\n\n")
      | c => if truthy c then .error "TypeError" else .ok "\n\n"
    else if t.isStr "heading" then
      match toRepeatCount (headingLevelJs v) with
      | .error e => .error e
      | .ok lvl =>
        match hc : getField v "content" with
        | .arr xs =>
          have : sizeOf xs < sizeOf v := sizeOf_lt_of_content hc
          (processConcat xs).map
            (fun s => String.mk (List.replicate lvl '#') ++ " " ++ s ++ "\n\n")
        | c => if truthy c then .error "TypeError" else .ok "\n\n"
    else if t.isStr "bulletList" || t.isStr "orderedList" then
      match hc : getField v "content" with
      | .arr xs =>
        have : sizeOf xs < sizeOf v := sizeOf_lt_of_content hc
        (processBullets (t.isStr "bulletList") 0 xs).map (fun s => s ++ "\n")
      | c => if truthy c then .error "TypeError" else .ok "\n"
    else if t.isStr "listItem" then
      match hc : getField v "content" with
      | .arr xs =>
        have : sizeOf xs < sizeOf v := sizeOf_lt_of_content hc
        processItemChildren xs
      | c => if truthy c then .error "TypeError" else .ok ""
    else if t.isStr "codeBlock" then
      match hc : getField v "content" with
      | .arr xs =>
        have : sizeOf xs < sizeOf v := sizeOf_lt_of_content hc
        (processConcat xs).map (fun s => "```\n" ++ s ++ "\n```\n\n")
      | c =>
        if truthy c then .error "TypeError"
        else .ok ("```\n" ++ "\n```\n\n")
    else if t.isStr "inlineCard" || t.isStr "blockCard" then
      let u := cardUrlJs v
      .ok (if truthy u then "[" ++ jsPrimToString u ++ "](" ++ jsPrimToString u ++ ")" else "")
    else
      match hc : getField v "content" with
      | .arr xs =>
        have : sizeOf xs < sizeOf v := sizeOf_lt_of_content hc
        processConcat xs
      | c => if truthy c then .error "TypeError" else .ok ""
termination_by sizeOf v

def processConcat (xs : List Js) : Except String String :=
  match xs with
  | [] => .ok ""
  | x :: rest => do
    let s ← processNode x
    let r ← processConcat rest
    .ok (s ++ r)
termination_by sizeOf xs

def processBullets (isBullet : Bool) (idx : Nat) (xs : List Js) : Except String String :=
  match xs with
  | [] => .ok ""
  | x :: rest => do
    let s ← processNode x
    let r ← processBullets isBullet (idx + 1) rest
    .ok ((if isBullet then "- " else toString (idx + 1) ++ ". ") ++ jsTrim s ++ "\n" ++ r)
termination_by sizeOf xs

def processItemChildren (xs : List Js) : Except String String :=
  match xs with
  | [] => .ok ""
  | x :: rest => do
    let s ← processNode x
    let r ← processItemChildren rest
    .ok (jsTrim s ++ " " ++ r)
termination_by sizeOf xs

end

/-- The function `_extractTextFromADF`: render an ADF document to plain text.  An absent
or falsy `content` yields the empty string; the rendered concatenation of
the top-level nodes is trimmed. -/
def extractTextFromADF (adf : Js) : Except String String :=
  if !truthy adf || !truthy (getField adf "content") then .ok ""
  else
    match getField adf "content" with
    | .arr xs => (processConcat xs).map (fun s => jsTrim s)
    | _ => .error "TypeError"

/-! ## Well-formed documents of `text`, `paragraph` and `heading` nodes

The class of documents quantified over by the in-order rendering claim:
finite trees built from the three node kinds, embedded into `Js` exactly
as the tracker delivers them. -/

mutual

inductive SimpleNode where
  | text (s : String) : SimpleNode
  | para (cs : SimpleForest) : SimpleNode
  | heading (level : Nat) (cs : SimpleForest) : SimpleNode

inductive SimpleForest where
  | nil : SimpleForest
  | cons (n : SimpleNode) (rest : SimpleForest) : SimpleForest

end

mutual

def SimpleNode.toJs : SimpleNode → Js
  | .text s => Js.obj [("type", Js.str "text"), ("text", Js.str s)]
  | .para cs => Js.obj [("type", Js.str "paragraph"), ("content", Js.arr cs.toJsList)]
  | .heading l cs =>
    Js.obj [("type", Js.str "heading"), ("attrs", Js.obj [("level", Js.num (l : Int))]),
      ("content", Js.arr cs.toJsList)]

def SimpleForest.toJsList : SimpleForest → List Js
  | .nil => []
  | .cons n rest => n.toJs :: rest.toJsList

end

mutual

/-- The literal text fragments of a node, in document order. -/
def SimpleNode.frags : SimpleNode → List String
  | .text s => [s]
  | .para cs => cs.frags
  | .heading _ cs => cs.frags

def SimpleForest.frags : SimpleForest → List String
  | .nil => []
  | .cons n rest => n.frags ++ rest.frags

end

/-- An ADF document whose top-level nodes are the given forest. -/
def toDoc (ds : SimpleForest) : Js :=
  Js.obj [("type", Js.str "doc"), ("content", Js.arr ds.toJsList)]

/-- Relation `Decomp out fs` : `out` decomposes as `pre₁ ++ f₁ ++ pre₂ ++ f₂ ++ ⋯`,
i.e. it contains the fragments `fs` in order, each consumed exactly once
by the decomposition. -/
inductive Decomp : String → List String → Prop where
  | nil (s : String) : Decomp s []
  | cons (pre f rest : String) (fs : List String) (h : Decomp rest fs) :
      Decomp (pre ++ f ++ rest) (f :: fs)

/-! ## Attachment policies

`JiraAttachment` is the descriptor read from `issue.fields.attachment`
(`content` is the download URL field of the Jira API).  A download
attempt has one of three outcomes: a 2xx response with a body, a non-2xx
response, or a thrown transport error. -/

structure JiraAttachment where
  filename : String
  mimeType : String
  size : Nat
  content : String

inductive DownloadOutcome where
  | success (body : String) : DownloadOutcome
  | httpNotOk : DownloadOutcome
  | throws : DownloadOutcome

/-- Computes `Math.round(size / 1024)` (exact: powers of two divide doubles
exactly in this range). -/
def kbRound (size : Nat) : Nat := (size + 512) / 1024

/-- Computes `Math.round(size / 1024 / 1024)`. -/
def mbRound (size : Nat) : Nat := (size + 524288) / 1048576

/-! ### Inline profile (`_fetchFullIssueDetails`) -/

def isTextFile (a : JiraAttachment) : Bool :=
  jsIncludes a.mimeType "text/" || jsIncludes a.mimeType "application/json" ||
  jsIncludes a.mimeType "application/yaml" || jsIncludes a.mimeType "application/yml" ||
  jsEndsWith a.filename ".md" || jsEndsWith a.filename ".txt" ||
  jsEndsWith a.filename ".json" || jsEndsWith a.filename ".yaml" ||
  jsEndsWith a.filename ".yml" || jsEndsWith a.filename ".xml"

def isImage (a : JiraAttachment) : Bool :=
  jsStartsWith a.mimeType "image/"

def isDocument (a : JiraAttachment) : Bool :=
  jsIncludes a.mimeType "application/pdf" || jsIncludes a.mimeType "application/msword" ||
  jsIncludes a.mimeType "application/vnd.openxmlformats"

/-- Embeds `const maxSize = isTextFile ? 5 * 1024 * 1024 : 2 * 1024 * 1024;` -/
def inlineMaxSize (a : JiraAttachment) : Nat :=
  if isTextFile a then 5 * 1024 * 1024 else 2 * 1024 * 1024

/-- The inline profile performs the download (the `fetch` call) exactly
when `(isTextFile || isImage || isDocument) && att.size < maxSize`. -/
def shouldFetchInline (a : JiraAttachment) : Bool :=
  (isTextFile a || isImage a || isDocument a) && decide (a.size < inlineMaxSize a)

/-- The per-attachment header lines of the inline profile. -/
def inlineAttachmentHeader (a : JiraAttachment) : String :=
  "\n### " ++ a.filename ++ " (" ++ toString (kbRound a.size) ++ " KB)" ++
  "\n- **Type:** " ++ a.mimeType ++
  "\n- **URL:** " ++ a.content ++ "\n"

/-- The text appended after the header by the inline profile, as a
function of the attachment and (when a download is attempted) its
outcome. -/
def inlineAttachmentBody (a : JiraAttachment) (o : DownloadOutcome) : String :=
  if shouldFetchInline a then
    match o with
    | .success body =>
      if isTextFile a then "\n**Content:**\n```\n" ++ body ++ "\n```\n"
      else if isImage a then
        "\n**Note:** Image file available at the URL above. Copilot can reference this image.\n"
      else "\n**Note:** Document file available at the URL above.\n"
    | .httpNotOk => ""
    | .throws =>
      "\n**Note:** Could not download attachment content. File available at URL above.\n"
  else if a.size ≥ inlineMaxSize a then
    "\n**Note:** " ++ ("File too large to include in context (" ++ toString (mbRound a.size) ++
      " MB)") ++ ". URL provided above.\n"
  else ""

/-- The complete per-attachment section of the inline profile (the loop
body ends with `context += '\n'`). -/
def inlineAttachmentSection (a : JiraAttachment) (o : DownloadOutcome) : String :=
  inlineAttachmentHeader a ++ inlineAttachmentBody a o ++ "\n"

/-- The whole inline attachment loop: each descriptor contributes its
section, independently of the others (no failure aborts the loop). -/
def inlineAttachmentsFold : List (JiraAttachment × DownloadOutcome) → String
  | [] => ""
  | (a, o) :: rest => inlineAttachmentSection a o ++ inlineAttachmentsFold rest

/-! ### Unified profile (`_buildIssueContext`) -/

def unifiedMaxSize : Nat := 5 * 1024 * 1024

/-- The unified profile attempts the download exactly when
`att.size < maxSize`. -/
def unifiedShouldFetch (a : JiraAttachment) : Bool :=
  decide (a.size < unifiedMaxSize)

def unifiedBullet (a : JiraAttachment) : String :=
  "- **" ++ a.filename ++ "** (" ++ toString (kbRound a.size) ++ " KB) - " ++ a.mimeType ++ "\n"

/-- Embeds `path.join(workspaceRoot, ".jira-context", issue.key)`. -/
def jiraContextDirFor (workspaceRoot issueKey : String) : String :=
  workspaceRoot ++ "/.jira-context/" ++ issueKey

/-- The unified profile loop body for one attachment: the context lines it
appends and, when the file was written, the recorded absolute path. -/
def unifiedAttachmentResult (workspaceRoot issueKey : String) (a : JiraAttachment)
    (o : DownloadOutcome) : String × Option String :=
  if a.size < unifiedMaxSize then
    match o with
    | .success _ =>
      (unifiedBullet a ++ "  ✓ Downloaded to .jira-context/" ++ issueKey ++ "/" ++ a.filename ++ "\n",
        some (jiraContextDirFor workspaceRoot issueKey ++ "/" ++ a.filename))
    | .httpNotOk => (unifiedBullet a, none)
    | .throws =>
      (unifiedBullet a ++ "  ⚠ Could not download (URL: " ++ a.content ++ ")\n", none)
  else
    (unifiedBullet a ++ "  ⚠ " ++ ("Too large to include (" ++ toString (mbRound a.size) ++ " MB)") ++
      "\n", none)

/-- The whole unified attachment loop: concatenated context lines and the
list of downloaded file paths; every descriptor is processed regardless of
earlier failures. -/
def unifiedAttachmentsFold (workspaceRoot issueKey : String) :
    List (JiraAttachment × DownloadOutcome) → String × List String
  | [] => ("", [])
  | (a, o) :: rest =>
    let r := unifiedAttachmentResult workspaceRoot issueKey a o
    let rest' := unifiedAttachmentsFold workspaceRoot issueKey rest
    (r.1 ++ rest'.1, r.2.toList ++ rest'.2)

/-! ## Two-tier issue search (`_callJiraAPI`) -/

structure JiraIssue where
  key : String
  summary : String
  description : String
  status : String
  priority : String
deriving DecidableEq

/-- Raw issue JSON as read by both tiers: `key`, `fields.summary`,
optional `fields.description`, `fields.status.name`, optional
`fields.priority.name`. -/
structure RawIssue where
  key : String
  summary : String
  description : Option String
  statusName : String
  priorityName : Option String

/-- The mapping applied to each raw issue:
`description || ""` and `priority?.name || "None"`. -/
def mapRawIssue (r : RawIssue) : JiraIssue :=
  ⟨r.key, r.summary, r.description.getD "", r.statusName, r.priorityName.getD "None"⟩

/-- The outcome of one `fetch`: a thrown transport error, or a response
with `ok`, `status`, `statusText` and a parsed body. -/
inductive FetchOutcome (α : Type) where
  | throws (msg : String) : FetchOutcome α
  | returns (ok : Bool) (status : Nat) (statusText : String) (body : α) : FetchOutcome α

/-- Field `boardsData.values` (absent field modelled as `none`). -/
structure BoardsBody where
  values : Option (List Nat)

/-- Field `issuesData.issues` / `data.issues` (absent or non-array modelled as
`none`). -/
structure IssuesBody where
  issues : Option (List RawIssue)

structure CallJiraEnv where
  boards : FetchOutcome BoardsBody
  boardIssues : FetchOutcome IssuesBody
  search : FetchOutcome IssuesBody

/-- Tier (a): the Agile-API attempt, wrapped in `try`/`catch`; `none`
means it produced no usable result and the code falls through to the JQL
search. -/
def tierAIssues (env : CallJiraEnv) : Option (List JiraIssue) :=
  match env.boards with
  | .throws _ => none
  | .returns ok _ _ body =>
    if ok then
      match body.values with
      | some (_ :: _) =>
        match env.boardIssues with
        | .throws _ => none
        | .returns iok _ _ ibody =>
          if iok then
            match ibody.issues with
            | some issues => some (issues.map mapRawIssue)
            | none => none
          else none
      | _ => none
    else none

/-- The function `_callJiraAPI`: tier (a), then the JQL fallback with its error
messages. -/
def callJiraAPI (env : CallJiraEnv) : Except String (List JiraIssue) :=
  match tierAIssues env with
  | some issues => .ok issues
  | none =>
    match env.search with
    | .throws msg => .error msg
    | .returns ok status statusText body =>
      if ok then
        match body.issues with
        | some issues => .ok (issues.map mapRawIssue)
        | none => .error "Invalid response from Jira API"
      else
        .error ("Jira API returned " ++ toString status ++ ": " ++ statusText ++
          ". This may be a team-managed project with limited API access.")

inductive JiraDeploymentKind where
  | cloud : JiraDeploymentKind
  | datacenter : JiraDeploymentKind

def searchApiPath : JiraDeploymentKind → String
  | .cloud => "/rest/api/3/search"
  | .datacenter => "/rest/api/2/search"

/-- The JQL of the fallback search. -/
def searchJql : String :=
  "assignee = currentUser() AND resolution = Unresolved ORDER BY updated DESC"

def isUnreservedURIChar (c : Char) : Bool :=
  c.isAlphanum || c == '-' || c == '_' || c == '.' || c == '!' || c == '~' ||
  c == '*' || c == Char.ofNat 39 || c == '(' || c == ')'

def hexDigitChar (n : Nat) : Char :=
  if n < 10 then Char.ofNat (48 + n) else Char.ofNat (55 + n)

/-- Embeds `encodeURIComponent`, modelled for ASCII input (the JQL constant is
ASCII). -/
def encodeURIComponent (s : String) : String :=
  String.join (s.toList.map (fun c =>
    if isUnreservedURIChar c then String.singleton c
    else "%" ++ String.singleton (hexDigitChar (c.toNat / 16)) ++
      String.singleton (hexDigitChar (c.toNat % 16))))

/-- The URL of the fallback JQL search request. -/
def searchUrl (baseUrl : String) (kind : JiraDeploymentKind) : String :=
  baseUrl ++ searchApiPath kind ++ "?jql=" ++ encodeURIComponent searchJql ++
    "&" ++ "maxResults=50" ++ "&fields=summary,description,status,priority"

/-! ## Issue classification and branch naming
(`_getIssueType`, `_setupGitBranch`) -/

/-- The outcome of the classification fetch: thrown error, non-2xx, or the
issue type name and optional labels array. -/
inductive IssueTypeFetch where
  | throws : IssueTypeFetch
  | httpNotOk : IssueTypeFetch
  | ok (issueTypeName : String) (labels : Option (List String)) : IssueTypeFetch

/-- The function `_getIssueType`: labels first, then the issue type name, defaulting to
`"feature"`; any error also yields `"feature"`. -/
def getIssueType : IssueTypeFetch → String
  | .ok issueTypeName labels =>
    let tn := jsToLower issueTypeName
    let ls := (labels.getD []).map jsToLower
    if ls.any (fun l => jsIncludes l "bug" || jsIncludes l "defect" || jsIncludes l "fix") then
      "bug"
    else if jsIncludes tn "bug" || jsIncludes tn "defect" then "bug"
    else "feature"
  | _ => "feature"

/-- Embeds `` const branchPrefix = issueType === "bug" ? "bug" : "feature";
const branchName = `${branchPrefix}/${issueKey.toLowerCase()}`; `` -/
def branchNameFor (issueType issueKey : String) : String :=
  (if issueType == "bug" then "bug" else "feature") ++ "/" ++ jsToLower issueKey

/-! ## Branch preparation (`_setupGitBranch`) -/

/-- The outcome of each shell command `_setupGitBranch` may run: its
stdout, or a thrown error carrying a message. -/
structure GitEnv where
  revParse : Except String String
  gitInit : Except String String
  addAll : Except String String
  commitInitial : Except String String
  renameMain : Except String String
  headBranch : Except String String
  branchList : Except String String
  createMain : Except String String
  checkoutMain : Except String String
  pullOriginMain : Except String String
  checkoutTarget : Except String String
  checkoutNewTarget : Except String String

/-- The body of `_setupGitBranch` inside its outer `try`: an `error`
result is an exception reaching the outer `catch`. -/
def setupGitBranchBody (env : GitEnv) (issueKey issueType : String) : Except String String := do
  match env.revParse with
  | .error _ => do
    let _ ← env.gitInit
    let _ ← env.addAll
    let _ ← env.commitInitial
    let _ ← env.renameMain
    pure ()
  | .ok _ => pure ()
  let currentBranch := jsTrim (← env.headBranch)
  let branches ← env.branchList
  if !(jsIncludes branches "main") then
    let _ ← env.createMain
    pure ()
  if currentBranch != "main" then
    let _ ← env.checkoutMain
    pure ()
  match env.pullOriginMain with
  | _ => pure ()
  let branchName := branchNameFor issueType issueKey
  match env.checkoutTarget with
  | .ok _ => pure branchName
  | .error _ => do
    let _ ← env.checkoutNewTarget
    pure branchName

inductive GitSetupResult where
  | completed (branchName : String) : GitSetupResult
  | warnedContinue (warning : String) : GitSetupResult
deriving DecidableEq

/-- The function `_setupGitBranch`: the whole body is wrapped in one `try`/`catch`
whose handler shows a warning and returns normally, so the function itself
never throws (an `Except.error` result would model a propagated
exception). -/
def setupGitBranch (env : GitEnv) (issueKey issueType : String) :
    Except String GitSetupResult :=
  match setupGitBranchBody env issueKey issueType with
  | .ok b => .ok (.completed b)
  | .error msg =>
    .ok (.warnedContinue ("Git setup failed: " ++ msg ++ ". Continuing without Git setup."))

/-! ## Changeset capture (`_getGitChangeset`, `_createUnitTests`) -/

/-- The outcome of one `execSync` call. -/
inductive ExecResult where
  | throws : ExecResult
  | ok (output : String) : ExecResult

/-- The function `_getGitChangeset`: staged diff, falling back to the unstaged diff,
`""` when both are empty, and `""` on any thrown git error. -/
def getGitChangeset (staged unstaged : ExecResult) : String :=
  match staged with
  | .throws => ""
  | .ok diff =>
    if diff == "" || (jsTrim diff).length == 0 then
      match unstaged with
      | .throws => ""
      | .ok unstagedDiff =>
        if unstagedDiff == "" || (jsTrim unstagedDiff).length == 0 then ""
        else unstagedDiff
    else diff

inductive UnitTestOutcome where
  | stoppedNoChanges : UnitTestOutcome
  | promptSent (changeset : String) : UnitTestOutcome
deriving DecidableEq

/-- The decision taken by `_createUnitTests` after capturing the
changeset: warn and stop on an empty changeset, otherwise send the
generated prompt (the outcome records the changeset embedded in the
prompt). -/
def createUnitTestsOutcome (staged unstaged : ExecResult) : UnitTestOutcome :=
  let changeset := getGitChangeset staged unstaged
  if changeset == "" || (jsTrim changeset).length == 0 then .stoppedNoChanges
  else .promptSent changeset

/-! ## Concrete inputs used by witnesses and counterexamples -/

/-- Search environment: tier (a) finds a board whose issue list is
present but empty; the JQL search would answer 410. -/
def zeroIssueBoardEnv : CallJiraEnv :=
  ⟨.returns true 200 "OK" ⟨some [7]⟩,
   .returns true 200 "OK" ⟨some []⟩,
   .returns false 410 "Gone" ⟨none⟩⟩

/-- Search environment: the boards call throws, the JQL search answers
410. -/
def boardsThrowEnv : CallJiraEnv :=
  ⟨.throws "boards fetch failed",
   .throws "unused",
   .returns false 410 "Gone" ⟨none⟩⟩

/-- A small image attachment (under 2 MiB). -/
def imgAtt : JiraAttachment :=
  ⟨"diagram.png", "image/png", 1000, "https://jira.example.com/secure/attachment/10/diagram.png"⟩

/-- A small text attachment. -/
def txtAtt : JiraAttachment :=
  ⟨"notes.txt", "text/plain", 1024, "https://jira.example.com/secure/attachment/10000/notes.txt"⟩

/-- An attachment at 10 MiB, above every threshold. -/
def bigAtt : JiraAttachment :=
  ⟨"dump.bin", "application/octet-stream", 10485760,
    "https://jira.example.com/secure/attachment/11/dump.bin"⟩

/-- An attachment of unrecognized category under 2 MiB. -/
def unknownAtt : JiraAttachment :=
  ⟨"payload.bin", "application/octet-stream", 4096,
    "https://jira.example.com/secure/attachment/12/payload.bin"⟩

/-- Git environment where the directory is not a repository and
`git init` itself fails. -/
def initFailEnv : GitEnv :=
  ⟨.error "not a repository", .error "git init failed", .ok "", .ok "", .ok "",
   .ok "main\n", .ok "* main\n", .ok "", .ok "", .error "no remote",
   .error "no such branch", .ok ""⟩

/-- A document consisting of one paragraph whose text fragment carries a
trailing space. -/
def trailingSpaceDoc : SimpleForest :=
  .cons (.para (.cons (.text "hi ") .nil)) .nil

/-- A document containing a text node that lacks its `text` field. -/
def textWithoutTextField : Js :=
  Js.obj [("content", Js.arr [Js.obj [("type", Js.str "text")]])]

/-- A document whose `content` field is truthy but not an array. -/
def nonArrayContent : Js :=
  Js.obj [("content", Js.num 1)]

/-! # Theorems

General-purpose lemmas first, then one theorem (with witness or
counterexample where required) per claim. -/

/-! ## String containment and decomposition lemmas -/

theorem string_length_eq_zero_iff (s : String) : s.length = 0 ↔ s = "" := by
  constructor
  · intro h
    cases s with
    | mk data =>
      simp only [String.length] at h
      have : data = [] := List.length_eq_zero.mp h
      subst this
      rfl
  · intro h
    subst h
    rfl

theorem toList_append (x y : String) : (x ++ y).toList = x.toList ++ y.toList := by
  simp [String.toList, String.data_append]

theorem jsIncludes_iff (s needle : String) :
    jsIncludes s needle = true ↔ needle.toList <:+: s.toList := by
  unfold jsIncludes
  rw [List.any_eq_true]
  constructor
  · rintro ⟨t, ht, hp⟩
    rw [List.mem_tails] at ht
    rw [ List.isPrefixOf_iff_prefix] at hp
    exact List.infix_iff_prefix_suffix.mpr ⟨t, hp, ht⟩
  · intro h
    obtain ⟨t, hp, ht⟩ := List.infix_iff_prefix_suffix.mp h
    exact ⟨t, (List.mem_tails _ _).mpr ht, ( List.isPrefixOf_iff_prefix).mpr hp⟩

theorem jsIncludes_append (pre mid post : String) :
    jsIncludes (pre ++ mid ++ post) mid = true := by
  rw [jsIncludes_iff]
  refine ⟨pre.toList, post.toList, ?_⟩
  rw [toList_append, toList_append]

theorem jsIncludes_append_left (x y m : String) (h : jsIncludes x m = true) :
    jsIncludes (x ++ y) m = true := by
  rw [jsIncludes_iff] at h ⊢
  obtain ⟨p, q, hq⟩ := h
  refine ⟨p, q ++ y.toList, ?_⟩
  rw [toList_append, ← hq]
  simp [List.append_assoc]

theorem jsIncludes_append_right (x y m : String) (h : jsIncludes y m = true) :
    jsIncludes (x ++ y) m = true := by
  rw [jsIncludes_iff] at h ⊢
  obtain ⟨p, q, hq⟩ := h
  refine ⟨x.toList ++ p, q, ?_⟩
  rw [toList_append, ← hq]
  simp [List.append_assoc]

theorem jsIncludes_of_sub {x m m' : String} (h : jsIncludes x m = true)
    (hsub : jsIncludes m m' = true) : jsIncludes x m' = true := by
  rw [jsIncludes_iff] at h hsub ⊢
  exact hsub.trans h

theorem Decomp.prepend {b : String} {fs : List String} (a : String) (h : Decomp b fs) :
    Decomp (a ++ b) fs := by
  cases h with
  | nil => exact .nil (a ++ b)
  | cons pre f rest fs h =>
    have h2 := Decomp.cons (a ++ pre) f rest fs h
    simpa [String.append_assoc] using h2

theorem Decomp.append_str {a : String} {fs : List String} (h : Decomp a fs) (y : String) :
    Decomp (a ++ y) fs := by
  induction h with
  | nil s => exact .nil (s ++ y)
  | cons pre f rest fs h ih =>
    have h2 := Decomp.cons pre f (rest ++ y) fs ih
    simpa [String.append_assoc] using h2

theorem Decomp.append {a b : String} {fa fb : List String}
    (ha : Decomp a fa) (hb : Decomp b fb) : Decomp (a ++ b) (fa ++ fb) := by
  induction ha with
  | nil s => exact hb.prepend s
  | cons pre f rest fs h ih =>
    have h2 := Decomp.cons pre f (rest ++ b) (fs ++ fb) ih
    simpa [String.append_assoc, List.cons_append] using h2

theorem Decomp.single (pre f post : String) : Decomp (pre ++ f ++ post) [f] :=
  .cons pre f post [] (.nil post)

theorem Decomp.length_le {out : String} {fs : List String} (h : Decomp out fs) :
    (fs.map String.length).sum ≤ out.length := by
  induction h with
  | nil s => simp
  | cons pre f rest fs h ih =>
    simp only [List.map_cons, List.sum_cons, String.length_append]
    omega

theorem Decomp.single_jsIncludes {out f : String} (h : Decomp out [f]) :
    jsIncludes out f = true := by
  cases h with
  | cons pre f rest fs h => exact jsIncludes_append pre f rest

/-! ## Claim C7 : issue classification and branch naming -/

/-- Claim C7: an issue is classified `bug` when some label contains
`bug`, `defect` or `fix` (case-insensitively); otherwise when the issue
type name contains `bug` or `defect`; otherwise `feature`; a thrown or
non-2xx classification fetch yields `feature`.  The branch name is
`kind/lowercased-key`, and a label containing `bug-fix` forces kind `bug`
and branch `bug/<lowercased key>` regardless of the issue type name. -/
theorem issue_classification_and_branch :
    (∀ tn labels, (∃ l ∈ labels.getD [],
        jsIncludes (jsToLower l) "bug" = true ∨ jsIncludes (jsToLower l) "defect" = true ∨
          jsIncludes (jsToLower l) "fix" = true) →
      getIssueType (.ok tn labels) = "bug")
    ∧ (∀ tn labels,
        ((labels.getD []).map jsToLower).any
            (fun l => jsIncludes l "bug" || jsIncludes l "defect" || jsIncludes l "fix") = false →
        (jsIncludes (jsToLower tn) "bug" = true ∨ jsIncludes (jsToLower tn) "defect" = true) →
        getIssueType (.ok tn labels) = "bug")
    ∧ (∀ tn labels,
        ((labels.getD []).map jsToLower).any
            (fun l => jsIncludes l "bug" || jsIncludes l "defect" || jsIncludes l "fix") = false →
        jsIncludes (jsToLower tn) "bug" = false → jsIncludes (jsToLower tn) "defect" = false →
        getIssueType (.ok tn labels) = "feature")
    ∧ getIssueType .throws = "feature"
    ∧ getIssueType .httpNotOk = "feature"
    ∧ (∀ t k, branchNameFor t k = (if t == "bug" then "bug" else "feature") ++ "/" ++ jsToLower k)
    ∧ (∀ tn labels key l, l ∈ labels → jsIncludes (jsToLower l) "bug-fix" = true →
        getIssueType (.ok tn (some labels)) = "bug" ∧
          branchNameFor (getIssueType (.ok tn (some labels))) key = "bug/" ++ jsToLower key) := by
  have hlabel : ∀ tn labels, (∃ l ∈ labels.getD [],
      jsIncludes (jsToLower l) "bug" = true ∨ jsIncludes (jsToLower l) "defect" = true ∨
        jsIncludes (jsToLower l) "fix" = true) →
      getIssueType (.ok tn labels) = "bug" := by
    intro tn labels ⟨l, hl, hor⟩
    have hany : ((labels.getD []).map jsToLower).any
        (fun x => jsIncludes x "bug" || jsIncludes x "defect" || jsIncludes x "fix") = true := by
      rw [List.any_eq_true]
      refine ⟨jsToLower l, List.mem_map_of_mem _ hl, ?_⟩
      rcases hor with h | h | h <;> simp [h]
    simp [getIssueType, hany]
  refine ⟨hlabel, ?_, ?_, rfl, rfl, fun t k => rfl, ?_⟩
  · intro tn labels hany htn
    rcases htn with h | h <;> simp [getIssueType, hany, h]
  · intro tn labels hany h1 h2
    simp [getIssueType, hany, h1, h2]
  · intro tn labels key l hl hbf
    have hbug : jsIncludes (jsToLower l) "bug" = true :=
      jsIncludes_of_sub hbf (by decide)
    have h := hlabel tn (some labels) ⟨l, by simpa using hl, Or.inl hbug⟩
    refine ⟨h, ?_⟩
    rw [h]
    show ( "bug" ++ "/") ++ jsToLower key = "bug/" ++ jsToLower key
    rfl

/-- Witness for claim C7 at a concrete input: a `Story` with label
`Bug-Fix` is classified `bug` and branches to `bug/proj-12`. -/
theorem issue_classification_and_branch_witness :
    getIssueType (.ok "Story" (some ["Bug-Fix"])) = "bug" ∧
    branchNameFor (getIssueType (.ok "Story" (some ["Bug-Fix"]))) "PROJ-12" = "bug/proj-12" := by
  have h := issue_classification_and_branch.2.2.2.2.2.2 "Story" ["Bug-Fix"] "PROJ-12" "Bug-Fix"
    (by simp) (by decide)
  exact ⟨h.1, by rw [h.2]; rfl⟩

/-! ## Claim C8 : changeset capture, three-way fallback -/

/-- Claim C8: for repository states (where a git diff is either empty or
has non-whitespace content), `_getGitChangeset` returns the staged diff
when non-empty, else the unstaged diff when non-empty, else the empty
string. -/
theorem getGitChangeset_three_cases :
    ∀ s u, (s = "" ∨ jsTrim s ≠ "") → (u = "" ∨ jsTrim u ≠ "") →
      getGitChangeset (.ok s) (.ok u) =
        (if s ≠ "" then s else if u ≠ "" then u else "") := by
  intro s u hs hu
  rcases hs with rfl | hs
  · have hu' : getGitChangeset (ExecResult.ok "") (ExecResult.ok u) =
        (if u ≠ "" then u else "") := by
      rcases hu with rfl | hu
      · simp [getGitChangeset]
      · have hne : u ≠ "" := by
          intro h
          subst h
          exact hu rfl
        have hlen : ((jsTrim u).length == 0) = false := by
          rw [beq_eq_false_iff_ne]
          intro h
          exact hu ((string_length_eq_zero_iff _).mp h)
        have hbeq : (u == "") = false := by
          rw [beq_eq_false_iff_ne]
          exact hne
        simp [getGitChangeset, hlen, hbeq, hne]
    simpa using hu'
  · have hne : s ≠ "" := by
      intro h
      subst h
      exact hs rfl
    have hlen : ((jsTrim s).length == 0) = false := by
      rw [beq_eq_false_iff_ne]
      intro h
      exact hs ((string_length_eq_zero_iff _).mp h)
    have hbeq : (s == "") = false := by
      rw [beq_eq_false_iff_ne]
      exact hne
    simp [getGitChangeset, hlen, hbeq, hne]

/-- Witness for claim C8: a staged-only state returns the staged diff; an
unstaged-only state returns the unstaged diff; a clean state returns the
empty string. -/
theorem getGitChangeset_three_cases_witness :
    getGitChangeset (.ok "staged diff") (.ok "") = "staged diff" ∧
    getGitChangeset (.ok "") (.ok "unstaged diff") = "unstaged diff" ∧
    getGitChangeset (.ok "") (.ok "") = "" := by
  refine ⟨?_, ?_, ?_⟩
  · have h := getGitChangeset_three_cases "staged diff" "" (Or.inr (by decide)) (Or.inl rfl)
    rw [h]
    decide
  · have h := getGitChangeset_three_cases "" "unstaged diff" (Or.inl rfl) (Or.inr (by decide))
    rw [h]
    decide
  · have h := getGitChangeset_three_cases "" "" (Or.inl rfl) (Or.inl rfl)
    rw [h]
    decide

/-! ## Claim C10 : git failures are swallowed by changeset capture -/

/-- Claim C10 (implicit): `_getGitChangeset` never throws and returns the
empty string whenever an executed git diff command throws, making a
failing diff indistinguishable from a clean tree, and the unit-test flow
then stops with the `no changes` warning. -/
theorem changeset_swallows_git_failures :
    (∀ u, getGitChangeset .throws u = "")
    ∧ (∀ s, jsTrim s = "" → getGitChangeset (.ok s) .throws = "")
    ∧ (∀ u, getGitChangeset .throws u = getGitChangeset (.ok "") (.ok ""))
    ∧ (∀ st un, getGitChangeset st un = "" →
        createUnitTestsOutcome st un = .stoppedNoChanges) := by
  refine ⟨fun u => rfl, ?_, ?_, ?_⟩
  · intro s hsz
    have hlen : ((jsTrim s).length == 0) = true := by
      rw [hsz]
      rfl
    simp [getGitChangeset, hlen]
  · intro u
    rfl
  · intro st un h
    simp [createUnitTestsOutcome, h]

/-- Witness for claim C10: a throwing staged-diff command yields the empty
changeset and the unit-test flow stops reporting no changes. -/
theorem changeset_swallows_git_failures_witness :
    getGitChangeset .throws (.ok "real diff") = "" ∧
    createUnitTestsOutcome .throws (.ok "real diff") = .stoppedNoChanges := by
  refine ⟨changeset_swallows_git_failures.1 (.ok "real diff"), ?_⟩
  exact changeset_swallows_git_failures.2.2.2 .throws (.ok "real diff")
    (changeset_swallows_git_failures.1 (.ok "real diff"))

/-! ## Claim C9 : fatality of branch-preparation failures -/

/-- Counterexample to claim C9: the claim asserts that a failure of the
initial repository creation is fatal, but with `git init` failing the
exception from the whole body reaches the catch inside the function, which returns
normally with a warning — `_startWorkOnIssue` keeps going, so nothing in
branch preparation is fatal. -/
theorem setupGitBranch_init_failure_counterexample :
    setupGitBranch initFailEnv "PROJ-7" "feature" =
      .ok (.warnedContinue "Git setup failed: git init failed. Continuing without Git setup.") ∧
    (setupGitBranch initFailEnv "PROJ-7" "feature").isOk = true := by
  exact ⟨rfl, rfl⟩

/-- Claim C9 (amended): every failure inside `_setupGitBranch`, including
the initial repository creation of step 1, is non-fatal: the function
always returns normally, converting any internal exception into a
`Git setup failed` warning after which the workflow continues. -/
theorem setupGitBranch_never_fatal :
    ∀ env issueKey issueType,
      (∃ r, setupGitBranch env issueKey issueType = .ok r)
      ∧ (∀ msg, setupGitBranchBody env issueKey issueType = .error msg →
          setupGitBranch env issueKey issueType =
            .ok (.warnedContinue ("Git setup failed: " ++ msg ++
              ". Continuing without Git setup."))) := by
  intro env issueKey issueType
  constructor
  · cases hb : setupGitBranchBody env issueKey issueType with
    | ok b => exact ⟨.completed b, by simp [setupGitBranch, hb]⟩
    | error msg =>
      exact ⟨.warnedContinue ("Git setup failed: " ++ msg ++ ". Continuing without Git setup."),
        by simp [setupGitBranch, hb]⟩
  · intro msg hmsg
    simp [setupGitBranch, hmsg]

/-- Witness for claim C9 (amended) at the concrete failing-init
environment. -/
theorem setupGitBranch_never_fatal_witness :
    setupGitBranch initFailEnv "PROJ-7" "feature" =
      .ok (.warnedContinue "Git setup failed: git init failed. Continuing without Git setup.") := by
  have h := (setupGitBranch_never_fatal initFailEnv "PROJ-7" "feature").2 "git init failed" rfl
  exact h

/-! ## Claim C1 : two-tier search and the 410 fallback error -/

/-- Counterexample to claim C1: when tier (a) finds a board whose issue
list is present but empty, `_callJiraAPI` returns that empty list (an
empty JavaScript array is truthy), so the JQL fallback is never consulted
and no error referencing 410 is raised even though the search endpoint
would answer 410. -/
theorem callJiraAPI_zero_issue_board_counterexample :
    callJiraAPI zeroIssueBoardEnv = .ok [] := rfl

/-- Claim C1 (amended): the fallback JQL search (capped at 50 results)
runs only when tier (a) yields no usable result — the boards call throws
or is non-2xx, lists no boards, or the board-issue call throws, is
non-2xx, or lacks an `issues` array; a board whose issue list is present
but empty is a usable result, returned without fallback.  When the
fallback runs and answers non-2xx with status 410, the operation raises
an error whose message references 410. -/
theorem callJiraAPI_two_tier_amended :
    (∀ env bstat btxt b bs istat itxt,
        env.boards = .returns true bstat btxt ⟨some (b :: bs)⟩ →
        env.boardIssues = .returns true istat itxt ⟨some []⟩ →
        callJiraAPI env = .ok [])
    ∧ (∀ env stxt body, tierAIssues env = none →
        env.search = .returns false 410 stxt body →
        ∃ msg, callJiraAPI env = .error msg ∧ jsIncludes msg "410" = true)
    ∧ (∀ baseUrl kind, ∃ pre post, searchUrl baseUrl kind = pre ++ "maxResults=50" ++ post) := by
  refine ⟨?_, ?_, ?_⟩
  · intro env bstat btxt b bs istat itxt hb hbi
    simp [callJiraAPI, tierAIssues, hb, hbi]
  · intro env stxt body htier hs
    refine ⟨"Jira API returned " ++ toString 410 ++ ": " ++ stxt ++
      ". This may be a team-managed project with limited API access.", ?_, ?_⟩
    · simp [callJiraAPI, htier, hs]
    · have h0 : jsIncludes ("Jira API returned " ++ toString 410) "410" = true := by decide
      exact jsIncludes_append_left _ _ _ (jsIncludes_append_left _ _ _
        (jsIncludes_append_left _ _ _ h0))
  · intro baseUrl kind
    exact ⟨baseUrl ++ searchApiPath kind ++ "?jql=" ++ encodeURIComponent searchJql ++ "&",
      "&fields=summary,description,status,priority", rfl⟩

/-- Witness for claim C1 (amended): with the boards call throwing and the
JQL search answering 410 Gone, the raised error references 410; the
search URL carries the 50-result cap. -/
theorem callJiraAPI_two_tier_amended_witness :
    (∃ msg, callJiraAPI boardsThrowEnv = .error msg ∧ jsIncludes msg "410" = true) ∧
    (∃ pre post, searchUrl "https://x.atlassian.net" .cloud = pre ++ "maxResults=50" ++ post) := by
  refine ⟨?_, callJiraAPI_two_tier_amended.2.2 "https://x.atlassian.net" .cloud⟩
  exact callJiraAPI_two_tier_amended.2.1 boardsThrowEnv "Gone" ⟨none⟩ rfl rfl

/-! ## Claim C2 : inline attachment profile -/

/-- Counterexample to claim C2: the claim asserts that images under 2 MiB
are noted `without fetching content`, but the inline profile performs the
download (the `fetch` call) for them — only the inlining is skipped. -/
theorem inline_profile_image_fetch_counterexample :
    isImage imgAtt = true ∧ isTextFile imgAtt = false ∧ isDocument imgAtt = false ∧
    imgAtt.size < 2 * 1024 * 1024 ∧ shouldFetchInline imgAtt = true := by decide

/-- Claim C2 (amended): text-like attachments under 5 MiB are fetched and
inlined as a fenced block; images and documents under 2 MiB are also
fetched, but their content is never inlined (the emitted note does not
depend on the downloaded bytes); every other descriptor — exceeding its
threshold or matching no category — is not fetched, its section carries
its size in KB, and an over-threshold descriptor additionally gets the
`too large` note with its size in MB. -/
theorem inline_profile_classifier_amended :
    ∀ a body o,
      (isTextFile a = true → a.size < 5 * 1024 * 1024 →
        shouldFetchInline a = true ∧
        inlineAttachmentBody a (.success body) = "\n**Content:**\n```\n" ++ body ++ "\n```\n")
      ∧ (isTextFile a = false → (isImage a || isDocument a) = true →
          a.size < 2 * 1024 * 1024 →
        shouldFetchInline a = true ∧
        inlineAttachmentBody a (.success body) = inlineAttachmentBody a (.success ""))
      ∧ ((isTextFile a || isImage a || isDocument a) = false ∨ a.size ≥ inlineMaxSize a →
        shouldFetchInline a = false ∧
        jsIncludes (inlineAttachmentSection a o)
          (" (" ++ toString (kbRound a.size) ++ " KB)") = true ∧
        (a.size ≥ inlineMaxSize a →
          inlineAttachmentBody a o =
            "\n**Note:** " ++ ("File too large to include in context (" ++
              toString (mbRound a.size) ++ " MB)") ++ ". URL provided above.\n")) := by
  intro a body o
  have hsec : ∀ o', inlineAttachmentSection a o' =
      ("\n### " ++ a.filename) ++ (" (" ++ toString (kbRound a.size) ++ " KB)") ++
        (("\n- **Type:** " ++ a.mimeType ++ "\n- **URL:** " ++ a.content ++ "\n") ++
          inlineAttachmentBody a o' ++ "\n") := by
    intro o'
    unfold inlineAttachmentSection inlineAttachmentHeader
    simp only [String.append_assoc]
  refine ⟨?_, ?_, ?_⟩
  · intro htext hsize
    have hmax : inlineMaxSize a = 5 * 1024 * 1024 := by simp [inlineMaxSize, htext]
    constructor
    · simp [shouldFetchInline, hmax, htext, hsize]
    · simp [inlineAttachmentBody, shouldFetchInline, hmax, htext, hsize]
  · intro htext hcat hsize
    have hmax : inlineMaxSize a = 2 * 1024 * 1024 := by simp [inlineMaxSize, htext]
    have hfetch : shouldFetchInline a = true := by
      simp [shouldFetchInline, hmax, htext, hsize, hcat]
    refine ⟨hfetch, ?_⟩
    cases hI : isImage a with
    | true => simp [inlineAttachmentBody, hfetch, htext, hI]
    | false => simp [inlineAttachmentBody, hfetch, htext, hI]
  · intro h
    have hfetch : shouldFetchInline a = false := by
      rcases h with h | h
      · simp [shouldFetchInline, h]
      · have : ¬(a.size < inlineMaxSize a) := not_lt.mpr h
        simp [shouldFetchInline, this]
    refine ⟨hfetch, ?_, ?_⟩
    · rw [hsec o]
      exact jsIncludes_append _ _ _
    · intro hge
      have hlt : ¬(a.size < inlineMaxSize a) := not_lt.mpr hge
      simp [inlineAttachmentBody, hfetch, hlt, hge]

/-- Witness for claim C2 (amended): a small plain-text attachment is
fetched and inlined fenced; a small image is fetched; an unrecognized
small attachment and an oversize attachment are skipped with their sizes
noted. -/
theorem inline_profile_classifier_amended_witness :
    (shouldFetchInline txtAtt = true ∧
      inlineAttachmentBody txtAtt (.success "hello") =
        "\n**Content:**\n```\n" ++ "hello" ++ "\n```\n") ∧
    shouldFetchInline unknownAtt = false ∧
    shouldFetchInline bigAtt = false := by
  refine ⟨(inline_profile_classifier_amended txtAtt "hello" .httpNotOk).1 (by decide) (by decide),
    ((inline_profile_classifier_amended unknownAtt "" .httpNotOk).2.2 (Or.inl (by decide))).1,
    ((inline_profile_classifier_amended bigAtt "" .httpNotOk).2.2 (Or.inr (by decide))).1⟩

/-! ## Claim C3 : degradation of attachment download failures -/

/-- Counterexample to claim C3: in the unified profile a non-2xx download
response produces no note at all — the per-attachment text is just the
bullet line, which does not reference the attachment URL. -/
theorem unified_http_error_no_url_counterexample :
    (unifiedAttachmentResult "/workspace" "PROJ-1" txtAtt .httpNotOk).1 = unifiedBullet txtAtt ∧
    jsIncludes (unifiedAttachmentResult "/workspace" "PROJ-1" txtAtt .httpNotOk).1
      txtAtt.content = false := by
  constructor
  · rfl
  · decide

/-- Claim C3 (amended): a thrown transport error degrades to a note
referencing the original URL in the unified profile, and the inline
per-attachment section of the inline profile always carries the URL; a non-2xx
response yields no dedicated failure note (in the unified profile the
remaining text does not mention the URL); in both profiles no download
failure aborts the containing fetch — every attachment in the loop
contributes its section regardless of the others. -/
theorem attachment_failure_degradation_amended :
    ∀ root key a o rest,
      (a.size < unifiedMaxSize →
        jsIncludes (unifiedAttachmentResult root key a .throws).1 a.content = true)
      ∧ jsIncludes (inlineAttachmentSection a o) a.content = true
      ∧ (unifiedAttachmentsFold root key ((a, o) :: rest)).1 =
          (unifiedAttachmentResult root key a o).1 ++ (unifiedAttachmentsFold root key rest).1
      ∧ (unifiedAttachmentsFold root key ((a, o) :: rest)).2 =
          (unifiedAttachmentResult root key a o).2.toList ++
            (unifiedAttachmentsFold root key rest).2
      ∧ inlineAttachmentsFold ((a, o) :: rest) =
          inlineAttachmentSection a o ++ inlineAttachmentsFold rest := by
  intro root key a o rest
  refine ⟨?_, ?_, rfl, rfl, rfl⟩
  · intro hlt
    have h1 : (unifiedAttachmentResult root key a .throws).1 =
        (unifiedBullet a ++ "  ⚠ Could not download (URL: ") ++ a.content ++ ")\n" := by
      unfold unifiedAttachmentResult
      rw [if_pos hlt]
    rw [h1]
    exact jsIncludes_append _ _ _
  · have heq : inlineAttachmentSection a o =
        ("\n### " ++ a.filename ++ " (" ++ toString (kbRound a.size) ++ " KB)" ++
          "\n- **Type:** " ++ a.mimeType ++ "\n- **URL:** ") ++ a.content ++
          ("\n" ++ inlineAttachmentBody a o ++ "\n") := by
      unfold inlineAttachmentSection inlineAttachmentHeader
      simp only [String.append_assoc]
    rw [heq]
    exact jsIncludes_append _ _ _

/-- Witness for claim C3 (amended): at a concrete attachment, a thrown
download degrades to a URL-bearing note in the unified profile, and the
inline section carries the URL. -/
theorem attachment_failure_degradation_amended_witness :
    jsIncludes (unifiedAttachmentResult "/workspace" "PROJ-1" txtAtt .throws).1
      txtAtt.content = true ∧
    jsIncludes (inlineAttachmentSection txtAtt .throws) txtAtt.content = true := by
  exact ⟨(attachment_failure_degradation_amended "/workspace" "PROJ-1" txtAtt .throws []).1
      (by decide),
    (attachment_failure_degradation_amended "/workspace" "PROJ-1" txtAtt .throws []).2.1⟩

/-! ## Claim C4 : unified attachment profile -/

/-- Claim C4: the unified profile attempts the download exactly when the
byte size is under 5 MiB, independently of MIME type; a successful
download is recorded at the per-issue sandbox path
`<root>/.jira-context/<key>/<filename>`; a descriptor at or above 5 MiB
is not fetched and gets the `too large` note with its size. -/
theorem unified_profile_download_iff :
    ∀ root key a body o,
      ((unifiedAttachmentResult root key a (.success body)).2 =
          some (root ++ "/.jira-context/" ++ key ++ "/" ++ a.filename) ↔
        a.size < 5 * 1024 * 1024)
      ∧ (unifiedShouldFetch a = true ↔ a.size < 5 * 1024 * 1024)
      ∧ (a.size ≥ 5 * 1024 * 1024 →
          (unifiedAttachmentResult root key a o).2 = none ∧
          jsIncludes (unifiedAttachmentResult root key a o).1
            ("Too large to include (" ++ toString (mbRound a.size) ++ " MB)") = true)
      ∧ (∀ m, ((unifiedAttachmentResult root key ⟨a.filename, m, a.size, a.content⟩ o).2).isSome =
          ((unifiedAttachmentResult root key a o).2).isSome) := by
  intro root key a body o
  refine ⟨?_, ?_, ?_, ?_⟩
  · constructor
    · intro hsome
      by_cases hlt : a.size < unifiedMaxSize
      · simpa [unifiedMaxSize] using hlt
      · exact absurd hsome (by simp [unifiedAttachmentResult, hlt])
    · intro hlt
      have hlt' : a.size < unifiedMaxSize := by simpa [unifiedMaxSize] using hlt
      simp [unifiedAttachmentResult, hlt', jiraContextDirFor, String.append_assoc]
  · simp [unifiedShouldFetch, unifiedMaxSize]
  · intro hge
    have hlt : ¬(a.size < unifiedMaxSize) := by
      simp only [unifiedMaxSize]
      omega
    constructor
    · simp [unifiedAttachmentResult, hlt]
    · have h1 : (unifiedAttachmentResult root key a o).1 =
          (unifiedBullet a ++ "  ⚠ ") ++
            ("Too large to include (" ++ toString (mbRound a.size) ++ " MB)") ++ "\n" := by
        simp [unifiedAttachmentResult, hlt]
      rw [h1]
      exact jsIncludes_append _ _ _
  · intro m
    by_cases hlt : a.size < unifiedMaxSize <;> cases o <;>
      simp [unifiedAttachmentResult, hlt]

/-- Witness for claim C4 at concrete inputs: a 1 KiB text file is
downloaded to the issue sandbox; a 10 MiB file is skipped with the
`too large` note. -/
theorem unified_profile_download_iff_witness :
    (unifiedAttachmentResult "/workspace" "PROJ-1" txtAtt (.success "body")).2 =
      some ("/workspace" ++ "/.jira-context/" ++ "PROJ-1" ++ "/" ++ txtAtt.filename) ∧
    (unifiedAttachmentResult "/workspace" "PROJ-1" bigAtt .httpNotOk).2 = none ∧
    jsIncludes (unifiedAttachmentResult "/workspace" "PROJ-1" bigAtt .httpNotOk).1
      ("Too large to include (" ++ toString (mbRound bigAtt.size) ++ " MB)") = true := by
  refine ⟨?_, ?_, ?_⟩
  · exact ((unified_profile_download_iff "/workspace" "PROJ-1" txtAtt "body" .httpNotOk).1).mpr
      (by decide)
  · exact ((unified_profile_download_iff "/workspace" "PROJ-1" bigAtt "" .httpNotOk).2.2.1
      (by decide)).1
  · exact ((unified_profile_download_iff "/workspace" "PROJ-1" bigAtt "" .httpNotOk).2.2.1
      (by decide)).2

/-! ## Claim C5 : in-order rendering of simple documents -/

/-- The effective heading level after `node.attrs?.level || 1`. -/
theorem toRepeatCount_level (l : Nat) :
    toRepeatCount (if truthy (Js.num (l : Int)) then Js.num (l : Int) else Js.num 1) =
      .ok (if l = 0 then 1 else l) := by
  rcases Nat.eq_zero_or_pos l with hl | hl
  · subst hl
    simp [truthy, toRepeatCount]
  · have hne : ((l : Int) ≠ 0) := by
      exact_mod_cast hl.ne'
    have hnlt : ¬((l : Int) < 0) := by omega
    simp [truthy, bne_iff_ne, hne, toRepeatCount, hnlt, hl.ne']

mutual

theorem processNode_simple : ∀ (n : SimpleNode),
    ∃ out, processNode n.toJs = Except.ok out ∧ Decomp out n.frags
  | .text s => by
    refine ⟨s, ?_, ?_⟩
    · rw [processNode]
      simp [SimpleNode.toJs, getField, Js.isStr, isNullish, jsPrimToString, List.find?]
    · have h := Decomp.single "" s ""
      simpa using h
  | .para cs => by
    obtain ⟨out, hrun, hdec⟩ := processConcat_simple cs
    refine ⟨out ++ "\n\n", ?_, Decomp.append_str hdec "\n\n"⟩
    rw [processNode]
    simp [SimpleNode.toJs, getField, Js.isStr, isNullish, truthy, List.find?, hrun]
    rfl
  | .heading l cs => by
    obtain ⟨out, hrun, hdec⟩ := processConcat_simple cs
    refine ⟨String.mk (List.replicate (if l = 0 then 1 else l) '#') ++ " " ++ out ++ "\n\n",
      ?_, ?_⟩
    · have hlev : toRepeatCount (headingLevelJs (SimpleNode.heading l cs).toJs) =
          .ok (if l = 0 then 1 else l) := by
        have h1 : headingLevelJs (SimpleNode.heading l cs).toJs =
            (if truthy (Js.num (l : Int)) then Js.num (l : Int) else Js.num 1) := by
          simp [headingLevelJs, SimpleNode.toJs, getField, List.find?]
        rw [h1, toRepeatCount_level]
      rw [processNode]
      simp [SimpleNode.toJs, getField, Js.isStr, isNullish, truthy, List.find?, hrun] at hlev ⊢
      simp [hlev]
      rfl
    · exact Decomp.append_str
        (Decomp.prepend (String.mk (List.replicate (if l = 0 then 1 else l) '#') ++ " ") hdec)
        "\n\n"

theorem processConcat_simple : ∀ (f : SimpleForest),
    ∃ out, processConcat f.toJsList = Except.ok out ∧ Decomp out f.frags
  | .nil => by
    refine ⟨"", ?_, Decomp.nil ""⟩
    rw [SimpleForest.toJsList, processConcat]
  | .cons n rest => by
    obtain ⟨o1, h1, d1⟩ := processNode_simple n
    obtain ⟨o2, h2, d2⟩ := processConcat_simple rest
    refine ⟨o1 ++ o2, ?_, Decomp.append d1 d2⟩
    rw [SimpleForest.toJsList, processConcat]
    simp [h1, h2]
    rfl

end

/-- Counterexample to claim C5: the output of the renderer is trimmed, so
a literal fragment with trailing whitespace at the end of the document
does not occur in the output — the paragraph `hi ` renders to `hi`, which
does not contain its three-character fragment `hi ` (by
`Decomp.single_jsIncludes`, an in-order decomposition of the output would
force `jsIncludes` to hold). -/
theorem render_trailing_space_fragment_counterexample :
    extractTextFromADF (toDoc trailingSpaceDoc) = .ok "hi" ∧
    SimpleForest.frags trailingSpaceDoc = ["hi "] ∧
    jsIncludes "hi" "hi " = false := by
  refine ⟨?_, rfl, by decide⟩
  unfold toDoc trailingSpaceDoc extractTextFromADF
  simp [getField, List.find?, truthy, SimpleForest.toJsList, SimpleNode.toJs,
    processConcat, processNode, Js.isStr, isNullish, jsPrimToString]
  rfl

/-- Claim C5 (amended): for every document of `text`, `paragraph` and
`heading` nodes, the renderer succeeds and its output is the
whitespace-trim of a string containing every literal text fragment in
document order, exactly once (the final trim may shorten a leading or
trailing fragment). -/
theorem render_fragments_in_order_amended :
    ∀ ds : SimpleForest, ∃ raw,
      extractTextFromADF (toDoc ds) = .ok (jsTrim raw) ∧ Decomp raw ds.frags := by
  intro ds
  obtain ⟨out, hrun, hdec⟩ := processConcat_simple ds
  refine ⟨out, ?_, hdec⟩
  unfold extractTextFromADF toDoc
  simp [getField, List.find?, truthy, hrun]
  rfl

/-! ## Claim C6 : totality of the renderer on malformed input -/

/-- Counterexample to claim C6: a text node lacking its `text` field does
not render as the empty string — the JavaScript coercion appends the
literal string `undefined`; and a truthy non-array `content` field makes
`content.forEach` throw, so the renderer is not exception-free either. -/
theorem render_malformed_counterexample :
    extractTextFromADF textWithoutTextField = .ok "undefined" ∧
    extractTextFromADF nonArrayContent = .error "TypeError" := by
  refine ⟨?_, ?_⟩
  · unfold extractTextFromADF textWithoutTextField
    simp [getField, List.find?, truthy, processConcat, processNode, Js.isStr, isNullish,
      jsPrimToString]
    rfl
  · unfold extractTextFromADF nonArrayContent
    simp [getField, List.find?, truthy]

/-- Claim C6 (amended): a falsy document or a missing/falsy `content`
field renders as the empty string, but the renderer is not total on every
malformed input: a truthy non-array `content` raises a `TypeError`, and a
text node lacking its `text` field renders the literal string
`undefined` instead of the empty string. -/
theorem render_malformed_amended :
    (∀ adf, truthy adf = false → extractTextFromADF adf = .ok "")
    ∧ (∀ adf, truthy (getField adf "content") = false → extractTextFromADF adf = .ok "")
    ∧ (∀ adf c, truthy adf = true → getField adf "content" = c → truthy c = true →
        (∀ xs, c ≠ Js.arr xs) → extractTextFromADF adf = .error "TypeError")
    ∧ extractTextFromADF textWithoutTextField = .ok "undefined" := by
  refine ⟨?_, ?_, ?_, ?_⟩
  · intro adf h
    simp [extractTextFromADF, h]
  · intro adf h
    simp [extractTextFromADF, h]
  · intro adf c hadf hc htruthy hnarr
    unfold extractTextFromADF
    rw [hc]
    simp [hadf, htruthy]
  · unfold extractTextFromADF textWithoutTextField
    simp [getField, List.find?, truthy, processConcat, processNode, Js.isStr, isNullish,
      jsPrimToString]
    rfl

/-- Witness for claim C6 (amended): a `null` document renders empty; a
numeric `content` field raises the TypeError. -/
theorem render_malformed_amended_witness :
    extractTextFromADF Js.null = .ok "" ∧
    extractTextFromADF nonArrayContent = .error "TypeError" := by
  refine ⟨render_malformed_amended.1 Js.null rfl, ?_⟩
  exact render_malformed_amended.2.2.1 nonArrayContent (Js.num 1) rfl rfl rfl
    (fun xs h => Js.noConfusion h)

end Spec2Proof
